import Mathlib

/-!
Shallow embedding of the rawarray library (src/lib.rs): the RawArray
container, its header serialization, the read/write/reshape operations,
and the RawArrayFile random-access helpers.  Byte streams are modelled as
`List Nat` (each entry a byte value), machine u64 values as `Nat` with
explicit bounds `< 2^64` where serialization round-trips matter, and
panics / typed io errors as `Except RaError`.
-/

namespace RawArraySpec

/-- Error kinds of the library, per the failure taxonomy: `invalidFormat`
for a magic mismatch, `unsupportedFeature` for the flags gate,
`typeMismatch` for eltype/elbyte disagreement, `corruptHeader` for the
size arithmetic check, `truncatedFile` for the payload length assert,
`ioFailure` for underlying read failures, `assertionFailed` for other
source asserts (reshape precondition, from_u8 divisibility), and
`overflowPanic` for the debug-profile arithmetic-overflow abort of a
u64 multiplication (release builds would wrap instead; this embedding
models the checked, debug-profile arithmetic, the same panic mechanism
as the source's asserts). -/
inductive RaError where
  | invalidFormat
  | unsupportedFeature
  | typeMismatch
  | corruptHeader
  | truncatedFile
  | ioFailure
  | assertionFailed
  | overflowPanic
deriving DecidableEq, Repr

/-- src/lib.rs:45 `FLAG_BIG_ENDIAN`. -/
def FLAG_BIG_ENDIAN : Nat := 1

/-- src/lib.rs:46 `FLAG_ENCODED` (run-length encoding). -/
def FLAG_ENCODED : Nat := 2

/-- src/lib.rs:47 `FLAG_BITS` (single-bit elements). -/
def FLAG_BITS : Nat := 4

/-- src/lib.rs:48 `ALL_KNOWN_FLAGS = FLAG_BIG_ENDIAN | FLAG_ENCODED | FLAG_BITS`. -/
def ALL_KNOWN_FLAGS : Nat := FLAG_BIG_ENDIAN ||| FLAG_ENCODED ||| FLAG_BITS

/-- src/lib.rs:53 `MAGIC_NUMBER = 0x79_61_72_72_61_77_61_72`. -/
def MAGIC_NUMBER : Nat := 0x7961727261776172

/-- An element type as the library sees it: its registry type code
(`T::ra_type_code()`, src/lib.rs:100-179) and its byte width
(`mem::size_of::<T>()`). -/
structure RAType where
  code : Nat
  elbyte : Nat
deriving DecidableEq, Repr

/-- The closed set of registered element types (src/lib.rs:100-179):
i8 i16 i32 i64 i128 (code 1), u8 u16 u32 u64 u128 (code 2),
f32 f64 f16 (code 3), Complex of f32 / f64 (code 4), bf16 (code 5),
each paired with its byte width. -/
def supportedTypes : List RAType :=
  [⟨1, 1⟩, ⟨1, 2⟩, ⟨1, 4⟩, ⟨1, 8⟩, ⟨1, 16⟩,
   ⟨2, 1⟩, ⟨2, 2⟩, ⟨2, 4⟩, ⟨2, 8⟩, ⟨2, 16⟩,
   ⟨3, 4⟩, ⟨3, 8⟩,
   ⟨4, 8⟩, ⟨4, 16⟩,
   ⟨5, 2⟩, ⟨3, 2⟩]

/-- Little-endian 8-byte encoding of a u64 value (`u64::to_le_bytes`,
used by src/lib.rs:254-257 `write_u64`). -/
def u64le (n : Nat) : List Nat :=
  [n % 256, n / 256 % 256, n / 65536 % 256, n / 16777216 % 256,
   n / 4294967296 % 256, n / 1099511627776 % 256,
   n / 281474976710656 % 256, n / 72057594037927936 % 256]

/-- `u64::from_le_bytes` on an 8-byte buffer (src/lib.rs:248-252). -/
def u64fromLE : List Nat → Nat
  | [b0, b1, b2, b3, b4, b5, b6, b7] =>
      b0 + 256 * (b1 + 256 * (b2 + 256 * (b3 + 256 * (b4 + 256 *
        (b5 + 256 * (b6 + 256 * b7))))))
  | _ => 0

/-- Pull the next 8 bytes off a stream and decode them little-endian;
`none` models the short-read failure of `read_exact`. -/
def readU64 : List Nat → Option (Nat × List Nat)
  | b0 :: b1 :: b2 :: b3 :: b4 :: b5 :: b6 :: b7 :: rest =>
      some (u64fromLE [b0, b1, b2, b3, b4, b5, b6, b7], rest)
  | _ => none

/-- src/lib.rs:248-252 `read_u64`: read 8 bytes (aborting on a short
read, modelled as `ioFailure`) and decode little-endian. -/
def read_u64M (s : List Nat) : Except RaError (Nat × List Nat) :=
  match readU64 s with
  | some r => .ok r
  | none => .error .ioFailure

/-- src/lib.rs:254-257 `write_u64`: append the little-endian bytes of
`n` to the output `w`. -/
def write_u64 (w : List Nat) (n : Nat) : List Nat :=
  w ++ u64le n

/-- A u64 multiplication under the debug profile: the product is
returned when it fits in 64 bits, otherwise the program aborts with an
arithmetic-overflow panic (release builds wrap instead). -/
def u64mul (a b : Nat) : Except RaError Nat :=
  if a * b < 18446744073709551616 then .ok (a * b) else .error .overflowPanic

/-- The left fold behind `iter().product::<u64>()`: each partial
product is a checked u64 multiplication. -/
def u64prodAux : Nat → List Nat → Except RaError Nat
  | acc, [] => .ok acc
  | acc, d :: ds =>
    match u64mul acc d with
    | .error e => .error e
    | .ok acc2 => u64prodAux acc2 ds

/-- `dims.iter().product::<u64>()` as the source computes it: a u64
fold starting from 1, aborting on overflow under the debug profile. -/
def u64prod (l : List Nat) : Except RaError Nat :=
  u64prodAux 1 l

/-- src/lib.rs:259-277 `from_u8`: reinterpret a byte buffer as a buffer
of elements of width `elbyte`.  The memory is reused unchanged (a
pointer cast), so on the byte-image model it is the identity; the
function asserts that the length is an exact multiple of the element
size (division by a zero element size also aborts). -/
def from_u8 (elbyte : Nat) (v : List Nat) : Except RaError (List Nat) :=
  if elbyte = 0 then .error .assertionFailed
  else if v.length % elbyte ≠ 0 then .error .assertionFailed
  else .ok v

/-- src/lib.rs:232-241 the `RawArray<T>` container.  `data` holds the
byte image of the owned `Vec<T>` element buffer (the source converts
between `Vec<T>` and bytes by direct reinterpretation, never touching
the bytes themselves). -/
structure RawArray where
  flags : Nat
  eltype : Nat
  elbyte : Nat
  size : Nat
  ndims : Nat
  dims : List Nat
  data : List Nat
deriving DecidableEq, Repr

/-- src/lib.rs:300-312 `Default for RawArray<T>` (also `RawArray::new`,
src/lib.rs:368-370): zero flags and size, the type's code and width,
no dims, no data. -/
def RawArray.mkDefault (t : RAType) : RawArray :=
  { flags := 0, eltype := t.code, elbyte := t.elbyte, size := 0
    ndims := 0, dims := [], data := [] }

/-- src/lib.rs:314-331 `From<Vec<T>> for RawArray<T>`.  A `Vec<T>` is
modelled as a list of elements, each element the list of its
`t.elbyte` bytes; `size = v.len() * size_of::<T>()`, `ndims = 1`,
`dims = [v.len()]`, and the stored data is the buffer's byte image. -/
def fromVec (t : RAType) (v : List (List Nat)) : RawArray :=
  { flags := 0, eltype := t.code, elbyte := t.elbyte
    size := v.length * t.elbyte, ndims := 1, dims := [v.length]
    data := v.flatten }

/-- src/lib.rs:471-476 `RawArray::reshape`: compute the new and old
element counts as u64 products (checked, so an overflowing product is
itself a fatal abort under the debug profile), assert they are equal
(a panic, modelled as `assertionFailed`), then replace `dims`.  No
other field — in particular neither `ndims` nor `data` — is
touched. -/
def RawArray.reshape (ra : RawArray) (new_dims : List Nat) :
    Except RaError RawArray :=
  match u64prod new_dims with
  | .error e => .error e
  | .ok new_nelem =>
    match u64prod ra.dims with
    | .error e => .error e
    | .ok old_nelem =>
      if new_nelem = old_nelem then .ok { ra with dims := new_dims }
      else .error .assertionFailed

/-- Read `n` consecutive u64 dimension values (the loop at
src/lib.rs:502-504). -/
def readDims : Nat → List Nat → Except RaError (List Nat × List Nat)
  | 0, s => .ok ([], s)
  | n + 1, s =>
    match read_u64M s with
    | .error e => .error e
    | .ok (d, s) =>
      match readDims n s with
      | .error e => .error e
      | .ok (ds, s) => .ok (d :: ds, s)

/-- src/lib.rs:479-508 `RawArray::read_header`: six little-endian u64
fields (magic, flags, eltype, elbyte, size, ndims), then `ndims`
dimension values pushed onto the container's dims, with the source's
checks in source order: magic sentinel (`invalidFormat`), the flags
test `flags & ALL_KNOWN_FLAGS != 0` (`unsupportedFeature`) exactly as
written in the source, eltype against `T::ra_type_code()` and elbyte
against `size_of::<T>()` (`typeMismatch`), and the size arithmetic
`nelem * elbyte == size` (`corruptHeader`), where `nelem` is the u64
product of the dims and both the product and the multiplication are
checked u64 operations (debug-profile overflow abort). -/
def RawArray.read_header (ra : RawArray) (t : RAType) (s : List Nat) :
    Except RaError (RawArray × List Nat) :=
  match read_u64M s with
  | .error e => .error e
  | .ok (magic, s) =>
    if magic ≠ MAGIC_NUMBER then .error .invalidFormat else
    match read_u64M s with
    | .error e => .error e
    | .ok (flags, s) =>
      if flags &&& ALL_KNOWN_FLAGS ≠ 0 then .error .unsupportedFeature else
      match read_u64M s with
      | .error e => .error e
      | .ok (eltype, s) =>
        if eltype ≠ t.code then .error .typeMismatch else
        match read_u64M s with
        | .error e => .error e
        | .ok (elbyte, s) =>
          if elbyte ≠ t.elbyte then .error .typeMismatch else
          match read_u64M s with
          | .error e => .error e
          | .ok (size, s) =>
            match read_u64M s with
            | .error e => .error e
            | .ok (ndims, s) =>
              match readDims ndims s with
              | .error e => .error e
              | .ok (ds, s) =>
                match u64prod (ra.dims ++ ds) with
                | .error e => .error e
                | .ok nelem =>
                  match u64mul nelem elbyte with
                  | .error e => .error e
                  | .ok total =>
                    if total ≠ size then .error .corruptHeader else
                    .ok ({ ra with
                           flags := flags, eltype := eltype, elbyte := elbyte,
                           size := size, ndims := ndims,
                           dims := ra.dims ++ ds }, s)

/-- src/lib.rs:511-517 `RawArray::read_data`: `read_to_end` consumes
the whole remainder of the stream, then the source asserts the byte
count read equals `size` (modelled as `truncatedFile`, the failure the
assert reports for short payloads), then reinterprets the bytes as
elements via `from_u8`. -/
def RawArray.read_data (ra : RawArray) (s : List Nat) :
    Except RaError RawArray :=
  if s.length ≠ ra.size then .error .truncatedFile else
  match from_u8 ra.elbyte s with
  | .error e => .error e
  | .ok d => .ok { ra with data := d }

/-- src/lib.rs:534-541 `RawArray::read`: start from the default
container, parse the header, then the payload. -/
def RawArray.readRA (t : RAType) (s : List Nat) : Except RaError RawArray :=
  match (RawArray.mkDefault t).read_header t s with
  | .error e => .error e
  | .ok (ra, s) => ra.read_data s

/-- src/lib.rs:543-554 `RawArray::write_header`: six `write_u64` calls
in source order, then one per dimension entry. -/
def RawArray.write_header (ra : RawArray) (w : List Nat) : List Nat :=
  let w := write_u64 w MAGIC_NUMBER
  let w := write_u64 w ra.flags
  let w := write_u64 w ra.eltype
  let w := write_u64 w ra.elbyte
  let w := write_u64 w ra.size
  let w := write_u64 w ra.ndims
  ra.dims.foldl write_u64 w

/-- src/lib.rs:556-559 `RawArray::write_data`: append the raw byte
image of the element buffer (`as_u8_slice`, a direct
reinterpretation). -/
def RawArray.write_data (ra : RawArray) (w : List Nat) : List Nat :=
  w ++ ra.data

/-- src/lib.rs:571-577 `RawArray::write`: header then data, into an
initially empty output stream. -/
def RawArray.writeRA (ra : RawArray) : List Nat :=
  ra.write_data (ra.write_header [])

/-- src/lib.rs:185 `RawArrayFile`: a seekable open file, modelled as
its byte contents plus the current read position. -/
structure RAFile where
  contents : List Nat
  pos : Nat
deriving DecidableEq, Repr

/-- `read_exact` of an 8-byte buffer at the current position: succeeds
exactly when 8 bytes are available, advancing the position. -/
def RAFile.read_exact8 (f : RAFile) : Except RaError (List Nat × RAFile) :=
  if f.pos + 8 ≤ f.contents.length then
    .ok ((f.contents.drop f.pos).take 8, { f with pos := f.pos + 8 })
  else .error .ioFailure

/-- src/lib.rs:207-211 `RawArrayFile::u64`: read the next 8 bytes and
decode them little-endian. -/
def RAFile.u64 (f : RAFile) : Except RaError (Nat × RAFile) :=
  match f.read_exact8 with
  | .error e => .error e
  | .ok (buf, f) => .ok (u64fromLE buf, f)

/-- src/lib.rs:221-228 `RawArrayFile::u64_at`: remember the current
position, seek to the absolute `offset`, `read_exact` 8 bytes (an
early error return leaves the position clobbered, as in the source),
decode little-endian, and seek back. -/
def RAFile.u64_at (f : RAFile) (offset : Nat) :
    Except RaError (Nat × RAFile) :=
  let cur_loc := f.pos
  match RAFile.read_exact8 { f with pos := offset } with
  | .error e => .error e
  | .ok (buf, f2) => .ok (u64fromLE buf, { f2 with pos := cur_loc })

instance {ε α : Type} [DecidableEq ε] [DecidableEq α] :
    DecidableEq (Except ε α) := fun a b =>
  match a, b with
  | .ok x, .ok y =>
      if h : x = y then .isTrue (by rw [h]) else .isFalse (by simp [h])
  | .ok _, .error _ => .isFalse (by simp)
  | .error _, .ok _ => .isFalse (by simp)
  | .error e, .error e' =>
      if h : e = e' then .isTrue (by rw [h]) else .isFalse (by simp [h])

/-! ## Parsing and serialization lemmas -/

theorem u64fromLE_u64le (n : Nat) (h : n < 18446744073709551616) :
    u64fromLE [n % 256, n / 256 % 256, n / 65536 % 256, n / 16777216 % 256,
      n / 4294967296 % 256, n / 1099511627776 % 256,
      n / 281474976710656 % 256, n / 72057594037927936 % 256] = n := by
  simp only [u64fromLE]
  omega

theorem read_u64M_append (n : Nat) (rest : List Nat)
    (h : n < 18446744073709551616) :
    read_u64M (u64le n ++ rest) = .ok (n, rest) := by
  simp only [u64le, List.cons_append, List.nil_append, read_u64M, readU64,
    u64fromLE_u64le n h]

theorem readDims_append (dims : List Nat) (rest : List Nat)
    (h : ∀ d ∈ dims, d < 18446744073709551616) :
    readDims dims.length ((dims.map u64le).flatten ++ rest) =
      .ok (dims, rest) := by
  induction dims with
  | nil => simp [readDims]
  | cons d ds ih =>
      have hd : d < 18446744073709551616 := h d (by simp)
      have hds : ∀ x ∈ ds, x < 18446744073709551616 := fun x hx =>
        h x (by simp [hx])
      simp only [List.map_cons, List.flatten_cons, List.length_cons,
        List.append_assoc, readDims, read_u64M_append d _ hd, ih hds]

theorem u64mul_ok_iff (a b c : Nat) :
    u64mul a b = .ok c ↔ (a * b < 18446744073709551616 ∧ c = a * b) := by
  unfold u64mul
  split
  · simp_all
    omega
  · simp_all

theorem u64prodAux_ok_eq (l : List Nat) : ∀ acc p : Nat,
    u64prodAux acc l = .ok p → p = acc * l.prod := by
  induction l with
  | nil =>
      intro acc p h
      simp only [u64prodAux, Except.ok.injEq] at h
      simp [h]
  | cons d ds ih =>
      intro acc p h
      unfold u64prodAux at h
      split at h
      · exact Except.noConfusion h
      · next acc2 heq =>
          rw [u64mul_ok_iff] at heq
          rw [ih _ _ h, heq.2, List.prod_cons, Nat.mul_assoc]

theorem u64prod_ok_eq (l : List Nat) (p : Nat)
    (h : u64prod l = .ok p) : p = l.prod := by
  simpa using u64prodAux_ok_eq l 1 p h

theorem u64prod_singleton (n : Nat) (h : n < 18446744073709551616) :
    u64prod [n] = .ok n := by
  simp [u64prod, u64prodAux, u64mul, h]

theorem read_header_canonical (t : RAType) (ra : RawArray)
    (flags size nel : Nat) (ds rest : List Nat)
    (hf : flags < 18446744073709551616)
    (he : t.code < 18446744073709551616)
    (hb : t.elbyte < 18446744073709551616)
    (hs : size < 18446744073709551616)
    (hn : ds.length < 18446744073709551616)
    (hd : ∀ d ∈ ds, d < 18446744073709551616)
    (hflag : flags &&& ALL_KNOWN_FLAGS = 0)
    (hnel : u64prod (ra.dims ++ ds) = .ok nel)
    (hsz : nel * t.elbyte = size) :
    ra.read_header t (u64le MAGIC_NUMBER ++ u64le flags ++ u64le t.code ++
      u64le t.elbyte ++ u64le size ++ u64le ds.length ++
      (ds.map u64le).flatten ++ rest) =
    .ok ({ ra with
           flags := flags, eltype := t.code, elbyte := t.elbyte,
           size := size, ndims := ds.length, dims := ra.dims ++ ds }, rest) := by
  have hm : MAGIC_NUMBER < 18446744073709551616 := by decide
  have hmul : u64mul nel t.elbyte = .ok size := by
    rw [u64mul_ok_iff]
    omega
  simp only [RawArray.read_header, List.append_assoc,
    read_u64M_append _ _ hm, read_u64M_append _ _ hf,
    read_u64M_append _ _ he, read_u64M_append _ _ hb,
    read_u64M_append _ _ hs, read_u64M_append _ _ hn,
    readDims_append _ _ hd, hflag, hnel, hmul]
  simp

theorem flatten_length_uniform (k : Nat) :
    ∀ v : List (List Nat), (∀ e ∈ v, e.length = k) →
      v.flatten.length = v.length * k
  | [], _ => by simp
  | e :: v, h => by
      have he : e.length = k := h e (by simp)
      have hv : ∀ x ∈ v, x.length = k := fun x hx => h x (by simp [hx])
      simp [flatten_length_uniform k v hv, he, Nat.succ_mul, Nat.add_comm]

theorem foldl_write_u64 (l : List Nat) (w : List Nat) :
    l.foldl write_u64 w = w ++ (l.map u64le).flatten := by
  induction l generalizing w with
  | nil => simp
  | cons d ds ih => simp [write_u64, ih, List.append_assoc]

/-- The byte stream produced by `write` is the six header fields, the
dims, then the data, concatenated. -/
theorem writeRA_eq (ra : RawArray) :
    ra.writeRA =
      u64le MAGIC_NUMBER ++ u64le ra.flags ++ u64le ra.eltype ++
      u64le ra.elbyte ++ u64le ra.size ++ u64le ra.ndims ++
      (ra.dims.map u64le).flatten ++ ra.data := by
  simp [RawArray.writeRA, RawArray.write_data, RawArray.write_header,
    foldl_write_u64, write_u64, List.append_assoc]

theorem supportedTypes_bounds :
    ∀ u ∈ supportedTypes, 0 < u.elbyte ∧
      u.code < 18446744073709551616 ∧ u.elbyte < 18446744073709551616 := by
  decide

/-! ## Claim theorems -/

/-- C1: for every supported element type T and every in-memory buffer
of T (a list of elements, each the `elbyte`-byte bit pattern of one
element, with total byte size representable in a u64), writing the
`RawArray` built from that buffer via `From<Vec<T>>` and reading the
resulting byte stream back yields a container equal bit-for-bit to the
original — same flags, eltype, elbyte, size, ndims, dims vector and
element bytes. -/
theorem C1_write_read_roundtrip (t : RAType) (ht : t ∈ supportedTypes)
    (v : List (List Nat)) (hwf : ∀ e ∈ v, e.length = t.elbyte)
    (hsize : v.length * t.elbyte < 18446744073709551616) :
    RawArray.readRA t ((fromVec t v).writeRA) = .ok (fromVec t v) := by
  obtain ⟨hpos, hcode, hwidth⟩ := supportedTypes_bounds t ht
  have hlen : v.length < 18446744073709551616 :=
    Nat.lt_of_le_of_lt (Nat.le_mul_of_pos_right _ hpos) hsize
  have hflat : v.flatten.length = v.length * t.elbyte :=
    flatten_length_uniform t.elbyte v hwf
  have hh := read_header_canonical t (RawArray.mkDefault t) 0
    (v.length * t.elbyte) v.length [v.length] v.flatten (by decide) hcode
    hwidth hsize (by simp) (by simpa using hlen) (by decide)
    (by simp only [RawArray.mkDefault, List.nil_append]
        exact u64prod_singleton _ hlen)
    rfl
  simp only [RawArray.mkDefault, List.length_cons, List.length_nil,
    Nat.zero_add, List.nil_append, List.map_cons, List.map_nil,
    List.flatten_cons, List.flatten_nil, List.append_nil] at hh
  rw [writeRA_eq]
  simp only [fromVec, RawArray.readRA, RawArray.mkDefault, List.map_cons,
    List.map_nil, List.flatten_cons, List.flatten_nil, List.append_nil]
  rw [hh]
  simp only []
  simp [RawArray.read_data, from_u8, hflat, Nat.mul_mod_left, hpos.ne',
    fromVec]

/-- C1 witness: the round trip at the concrete type f32 (code 3, width
4) and the four-element buffer of the spec's scenario. -/
theorem C1_witness :
    RawArray.readRA ⟨3, 4⟩
      ((fromVec ⟨3, 4⟩
        [[0xc3, 0xf5, 0x48, 0x40], [0x7b, 0x14, 0x2e, 0x40],
         [0x29, 0x5c, 0xcf, 0x3f], [0xe1, 0x7a, 0xb4, 0x3f]]).writeRA) =
    .ok (fromVec ⟨3, 4⟩
      [[0xc3, 0xf5, 0x48, 0x40], [0x7b, 0x14, 0x2e, 0x40],
       [0x29, 0x5c, 0xcf, 0x3f], [0xe1, 0x7a, 0xb4, 0x3f]]) :=
  C1_write_read_roundtrip ⟨3, 4⟩ (by decide) _ (by decide) (by decide)

/-- C2 (evaluation of the code at the failing inputs): the flags gate
in `read_header` is inverted.  A header whose flags word is 8 — only
an *unknown* bit set, outside the supported set {1, 2, 4} — is
accepted and the whole read succeeds, while a header whose flags word
is 1 — the documented big-endian bit, inside the supported set — is
rejected with the unsupported-feature failure.  The claim (and the
code's own panic message) requires exactly the opposite. -/
theorem C2_flags_gate_eval :
    RawArray.readRA ⟨2, 1⟩
      (u64le MAGIC_NUMBER ++ u64le 8 ++ u64le 2 ++ u64le 1 ++ u64le 1 ++
       u64le 1 ++ u64le 1 ++ [42]) =
      .ok (⟨8, 2, 1, 1, 1, [1], [42]⟩ : RawArray) ∧
    RawArray.readRA ⟨2, 1⟩
      (u64le MAGIC_NUMBER ++ u64le 1 ++ u64le 2 ++ u64le 1 ++ u64le 1 ++
       u64le 1 ++ u64le 1 ++ [42]) =
      .error .unsupportedFeature :=
  ⟨rfl, rfl⟩

/-- C3 (evaluation of the code at the failing input): reshaping the
container built from six i32 elements from dims `[6]` to `[2, 3]`
leaves the stored `ndims` field at 1 while the dims vector now has
length 2, violating the `ndims == length(dims)` invariant the claim
states for every container produced by a public operation. -/
theorem C3_reshape_ndims_eval :
    ((fromVec ⟨1, 4⟩
        [[0, 0, 0, 0], [1, 0, 0, 0], [2, 0, 0, 0], [3, 0, 0, 0],
         [4, 0, 0, 0], [5, 0, 0, 0]]).reshape [2, 3]).map
      (fun r => (r.ndims, r.dims.length)) = .ok (1, 2) :=
  rfl

/-- C4 counterexample: the container built from the empty u8 vector
has dims `[0]`, and the new dims `[2^63, 4, 0]` have the same
mathematical element product (both 0), so the claim demands a normal
return with the dims replaced — yet `reshape` aborts: the u64 product
computation hits `2^63 * 4`, an arithmetic overflow, before the
equality assert is reached (a release build would instead compare
wrapped products). -/
theorem C4_overflow_counterexample :
    ([9223372036854775808, 4, 0] : List Nat).prod =
      (fromVec ⟨2, 1⟩ []).dims.prod ∧
    (fromVec ⟨2, 1⟩ []).reshape [9223372036854775808, 4, 0] =
      .error .overflowPanic :=
  ⟨rfl, rfl⟩

/-- C4 amended: whenever both u64 element-count computations complete
without overflow, `reshape` with equal products succeeds, replacing
exactly the dims vector (all other fields, in particular the data
bytes, unchanged); and whenever the mathematical products differ,
`reshape` never returns normally — it aborts, either through the
equality assert or, if a product computation overflows u64, through
the arithmetic-overflow panic. -/
theorem C4_reshape_amended (ra : RawArray) (nd : List Nat) :
    (nd.prod = ra.dims.prod → u64prod nd = .ok nd.prod →
      u64prod ra.dims = .ok ra.dims.prod →
      ra.reshape nd = .ok { ra with dims := nd }) ∧
    (nd.prod ≠ ra.dims.prod → ∃ e, ra.reshape nd = .error e) := by
  constructor
  · intro h h1 h2
    simp [RawArray.reshape, h1, h2, h]
  · intro h
    unfold RawArray.reshape
    cases h1 : u64prod nd with
    | error e => exact ⟨e, rfl⟩
    | ok p1 =>
      cases h2 : u64prod ra.dims with
      | error e => exact ⟨e, rfl⟩
      | ok p2 =>
        have e1 := u64prod_ok_eq _ _ h1
        have e2 := u64prod_ok_eq _ _ h2
        refine ⟨.assertionFailed, ?_⟩
        have hne : p1 ≠ p2 := by
          rw [e1, e2]
          exact h
        simp [hne]

/-- C4 witness: a 4-element u16 container reshaped `[4] → [2, 2]`
(products 4 = 4, no overflow) succeeds with only dims replaced;
reshaping it to `[3]` (products 3 ≠ 4) fails. -/
theorem C4_witness :
    ((fromVec ⟨2, 2⟩ [[1, 0], [0, 0], [1, 0], [0, 0]]).reshape [2, 2] =
      .ok { fromVec ⟨2, 2⟩ [[1, 0], [0, 0], [1, 0], [0, 0]] with
            dims := [2, 2] }) ∧
    (∃ e, (fromVec ⟨2, 2⟩ [[1, 0], [0, 0], [1, 0], [0, 0]]).reshape [3] =
      .error e) :=
  ⟨(C4_reshape_amended _ _).1 (by decide) (by decide) (by decide),
   (C4_reshape_amended _ _).2 (by decide)⟩

/-- C5: for every stream whose magic is accepted and whose flags pass
the flags check, if the header's eltype differs from the requested
type's registry code — or the eltype matches but elbyte differs from
the type's byte width — `read_header` fails with the type-mismatch
error (and hence returns no populated container). -/
theorem C5_type_mismatch (t : RAType) (flags eltype elbyte : Nat)
    (rest : List Nat)
    (hf : flags < 18446744073709551616)
    (he : eltype < 18446744073709551616)
    (hb : elbyte < 18446744073709551616)
    (hflag : flags &&& ALL_KNOWN_FLAGS = 0)
    (hmis : eltype ≠ t.code ∨ (eltype = t.code ∧ elbyte ≠ t.elbyte)) :
    (RawArray.mkDefault t).read_header t
      (u64le MAGIC_NUMBER ++ u64le flags ++ u64le eltype ++
       u64le elbyte ++ rest) = .error .typeMismatch := by
  have hm : MAGIC_NUMBER < 18446744073709551616 := by decide
  rcases hmis with h | ⟨he2, hb2⟩
  · simp only [RawArray.read_header, List.append_assoc,
      read_u64M_append _ _ hm, read_u64M_append _ _ hf,
      read_u64M_append _ _ he, hflag]
    simp [h]
  · subst he2
    simp only [RawArray.read_header, List.append_assoc,
      read_u64M_append _ _ hm, read_u64M_append _ _ hf,
      read_u64M_append _ _ he, read_u64M_append _ _ hb, hflag]
    simp [hb2]

/-- C5 witness: a header typed u8 (code 2, width 1) read as f32 (code
3, width 4) fails with the type mismatch; so does a header with the
right f32 code but an 8-byte width. -/
theorem C5_witness :
    ((RawArray.mkDefault ⟨3, 4⟩).read_header ⟨3, 4⟩
      (u64le MAGIC_NUMBER ++ u64le 0 ++ u64le 2 ++ u64le 1 ++ []) =
      .error .typeMismatch) ∧
    ((RawArray.mkDefault ⟨3, 4⟩).read_header ⟨3, 4⟩
      (u64le MAGIC_NUMBER ++ u64le 0 ++ u64le 3 ++ u64le 8 ++ []) =
      .error .typeMismatch) :=
  ⟨C5_type_mismatch ⟨3, 4⟩ 0 2 1 [] (by decide) (by decide) (by decide)
      (by decide) (Or.inl (by decide)),
   C5_type_mismatch ⟨3, 4⟩ 0 3 8 [] (by decide) (by decide) (by decide)
      (by decide) (Or.inr ⟨rfl, by decide⟩)⟩

/-- C6 counterexample: a u8 header declaring dims `[2^63, 2]` and
size 0 passes the magic, flags, eltype and elbyte checks, and its
declared size differs from elbyte times the mathematical product of
the dims (0 versus 2^64), so the claim demands a CorruptHeader
rejection — yet the read aborts with the arithmetic-overflow panic
inside the u64 dims-product computation, before the size assert is
reached (a release build would instead wrap the product to 0, pass
the assert, read the payload and return a populated container). -/
theorem C6_overflow_counterexample :
    RawArray.readRA ⟨2, 1⟩ (u64le MAGIC_NUMBER ++ u64le 0 ++ u64le 2 ++
      u64le 1 ++ u64le 0 ++ u64le 2 ++
      (([9223372036854775808, 2] : List Nat).map u64le).flatten ++ []) =
      .error .overflowPanic ∧
    RaError.overflowPanic ≠ RaError.corruptHeader :=
  ⟨rfl, by decide⟩

/-- C6 amended: for every stream whose header passes the magic, flags,
eltype and elbyte checks, when the u64 computation of the dims product
and of its multiplication by elbyte completes without overflow and the
result differs from the declared size, the whole read fails with the
corrupt-header error — for every possible payload `rest`, so no
payload read is attempted; and when the u64 dims-product computation
overflows, the read instead aborts with that overflow panic, again for
every payload, so again no payload read is attempted. -/
theorem C6_corrupt_header_amended (t : RAType) (flags size : Nat)
    (ds rest : List Nat)
    (hf : flags < 18446744073709551616)
    (he : t.code < 18446744073709551616)
    (hb : t.elbyte < 18446744073709551616)
    (hs : size < 18446744073709551616)
    (hn : ds.length < 18446744073709551616)
    (hd : ∀ d ∈ ds, d < 18446744073709551616)
    (hflag : flags &&& ALL_KNOWN_FLAGS = 0) :
    (∀ nel : Nat, u64prod ds = .ok nel →
      nel * t.elbyte < 18446744073709551616 → nel * t.elbyte ≠ size →
      RawArray.readRA t (u64le MAGIC_NUMBER ++ u64le flags ++
        u64le t.code ++ u64le t.elbyte ++ u64le size ++ u64le ds.length ++
        (ds.map u64le).flatten ++ rest) = .error .corruptHeader) ∧
    (∀ e : RaError, u64prod ds = .error e →
      RawArray.readRA t (u64le MAGIC_NUMBER ++ u64le flags ++
        u64le t.code ++ u64le t.elbyte ++ u64le size ++ u64le ds.length ++
        (ds.map u64le).flatten ++ rest) = .error e) := by
  have hm : MAGIC_NUMBER < 18446744073709551616 := by decide
  constructor
  · intro nel hnel hfit hbad
    have hmul : u64mul nel t.elbyte = .ok (nel * t.elbyte) := by
      rw [u64mul_ok_iff]
      exact ⟨hfit, rfl⟩
    simp only [RawArray.readRA, RawArray.read_header, RawArray.mkDefault,
      List.append_assoc, read_u64M_append _ _ hm, read_u64M_append _ _ hf,
      read_u64M_append _ _ he, read_u64M_append _ _ hb,
      read_u64M_append _ _ hs, read_u64M_append _ _ hn,
      readDims_append _ _ hd, hflag, List.nil_append, hnel, hmul]
    simp [hbad]
  · intro e hnel
    simp only [RawArray.readRA, RawArray.read_header, RawArray.mkDefault,
      List.append_assoc, read_u64M_append _ _ hm, read_u64M_append _ _ hf,
      read_u64M_append _ _ he, read_u64M_append _ _ hb,
      read_u64M_append _ _ hs, read_u64M_append _ _ hn,
      readDims_append _ _ hd, hflag, List.nil_append, hnel]
    simp

/-- C6 witness: a u8 header declaring dims `[3]` but size 5 is
rejected as corrupt with three payload bytes present; a u8 header
declaring dims `[2^63, 4]` aborts with the overflow panic, also with
payload bytes present. -/
theorem C6_witness :
    (RawArray.readRA ⟨2, 1⟩ (u64le MAGIC_NUMBER ++ u64le 0 ++ u64le 2 ++
      u64le 1 ++ u64le 5 ++ u64le 1 ++
      (([3] : List Nat).map u64le).flatten ++ [7, 7, 7]) =
      .error .corruptHeader) ∧
    (RawArray.readRA ⟨2, 1⟩ (u64le MAGIC_NUMBER ++ u64le 0 ++ u64le 2 ++
      u64le 1 ++ u64le 5 ++ u64le 2 ++
      (([9223372036854775808, 4] : List Nat).map u64le).flatten ++
      [7, 7, 7]) = .error .overflowPanic) :=
  ⟨(C6_corrupt_header_amended ⟨2, 1⟩ 0 5 [3] [7, 7, 7] (by decide)
      (by decide) (by decide) (by decide) (by decide) (by decide)
      (by decide)).1 3 (by decide) (by decide) (by decide),
   (C6_corrupt_header_amended ⟨2, 1⟩ 0 5 [9223372036854775808, 4]
      [7, 7, 7] (by decide) (by decide) (by decide) (by decide)
      (by decide) (by decide) (by decide)).2 .overflowPanic (by decide)⟩

/-- Inverting a successful header read: the container it returns
passed the size arithmetic check. -/
theorem read_header_ok_size (ra : RawArray) (t : RAType) (s : List Nat)
    (ra' : RawArray) (s' : List Nat)
    (h : ra.read_header t s = .ok (ra', s')) :
    ra'.size = ra'.dims.prod * ra'.elbyte := by
  unfold RawArray.read_header at h
  split at h
  · exact Except.noConfusion h
  next magic s1 heq1 =>
  split at h
  · exact Except.noConfusion h
  next hmagic =>
  split at h
  · exact Except.noConfusion h
  next flags s2 heq2 =>
  split at h
  · exact Except.noConfusion h
  next hflags =>
  split at h
  · exact Except.noConfusion h
  next eltype s3 heq3 =>
  split at h
  · exact Except.noConfusion h
  next heltype =>
  split at h
  · exact Except.noConfusion h
  next elbyte s4 heq4 =>
  split at h
  · exact Except.noConfusion h
  next helbyte =>
  split at h
  · exact Except.noConfusion h
  next size s5 heq5 =>
  split at h
  · exact Except.noConfusion h
  next ndims s6 heq6 =>
  split at h
  · exact Except.noConfusion h
  next ds s7 heq7 =>
  split at h
  · exact Except.noConfusion h
  next nelem hprod =>
  split at h
  · exact Except.noConfusion h
  next total hmul =>
  split at h
  · exact Except.noConfusion h
  next hguard =>
  rw [Except.ok.injEq, Prod.mk.injEq] at h
  obtain ⟨h1, h2⟩ := h
  subst h1
  have hts : total = size := by simpa using hguard
  have hp := u64prod_ok_eq _ _ hprod
  rw [u64mul_ok_iff] at hmul
  show size = (ra.dims ++ ds).prod * elbyte
  rw [← hts, hmul.2, hp]

/-- Inverting a successful payload read: only the data field changes. -/
theorem read_data_ok_frame (ra : RawArray) (s : List Nat)
    (ra' : RawArray) (h : ra.read_data s = .ok ra') :
    ra'.size = ra.size ∧ ra'.elbyte = ra.elbyte ∧ ra'.dims = ra.dims := by
  unfold RawArray.read_data at h
  repeat' split at h
  all_goals
    first
      | exact Except.noConfusion h
      | (rw [Except.ok.injEq] at h
         subst h
         simp)

/-- C7 counterexample: the default container (`RawArray::new`), for the
supported element type u8 (code 2, width 1), has `size = 0` but
`elbyte * product(dims) = 1 * product([]) = 1`, so the claimed
invariant `size == elbyte * product(dims)` (empty product read as 1)
fails on a container produced by a public constructor. -/
theorem C7_default_counterexample :
    ¬ ((RawArray.mkDefault ⟨2, 1⟩).size =
       (RawArray.mkDefault ⟨2, 1⟩).elbyte *
         (RawArray.mkDefault ⟨2, 1⟩).dims.prod) := by
  decide

/-- C7 amended: the invariant `size == elbyte * product(dims)` holds
for every container built by `From<Vec<T>>`, for every container
returned by a successful `read`, and is preserved by a successful
`reshape`; it does not hold for `new`/`default`, whose containers have
`size = 0` with an empty dims vector (empty product 1). -/
theorem C7_size_invariant_amended :
    (forall (t : RAType) (v : List (List Nat)),
      (fromVec t v).size = (fromVec t v).elbyte * (fromVec t v).dims.prod) /\
    (forall (t : RAType) (s : List Nat) (ra : RawArray),
      RawArray.readRA t s = .ok ra -> ra.size = ra.elbyte * ra.dims.prod) /\
    (forall (ra ra2 : RawArray) (nd : List Nat),
      ra.size = ra.elbyte * ra.dims.prod -> ra.reshape nd = .ok ra2 ->
        ra2.size = ra2.elbyte * ra2.dims.prod) := by
  refine ⟨?_, ?_, ?_⟩
  · intro t v
    simp [fromVec, Nat.mul_comm]
  · intro t s ra h
    unfold RawArray.readRA at h
    split at h
    · exact Except.noConfusion h
    · next ra1 s1 heq =>
        obtain ⟨hsz, hb, hd⟩ := read_data_ok_frame _ _ _ h
        have := read_header_ok_size _ _ _ _ _ heq
        rw [hsz, hb, hd, this, Nat.mul_comm]
  · intro ra ra2 nd hinv h
    unfold RawArray.reshape at h
    split at h
    · exact Except.noConfusion h
    · next p1 h1 =>
        split at h
        · exact Except.noConfusion h
        · next p2 h2 =>
            split at h
            · next hp =>
                rw [Except.ok.injEq] at h
                subst h
                have e1 := u64prod_ok_eq _ _ h1
                have e2 := u64prod_ok_eq _ _ h2
                have hnd : nd.prod = ra.dims.prod := by
                  rw [← e1, ← e2, hp]
                simpa [hnd] using hinv
            · exact Except.noConfusion h

/-- C7 witness: the amended invariant evaluated at concrete inputs —
a two-element u8 vector, the container read back from its own written
stream, and a `[2] → [1, 2]` reshape of it. -/
theorem C7_witness :
    ((fromVec ⟨2, 1⟩ [[7], [8]]).size =
      (fromVec ⟨2, 1⟩ [[7], [8]]).elbyte *
        (fromVec ⟨2, 1⟩ [[7], [8]]).dims.prod) /\
    ((⟨0, 2, 1, 2, 1, [2], [7, 8]⟩ : RawArray).size =
      (⟨0, 2, 1, 2, 1, [2], [7, 8]⟩ : RawArray).elbyte *
        (⟨0, 2, 1, 2, 1, [2], [7, 8]⟩ : RawArray).dims.prod) /\
    ((⟨0, 2, 1, 2, 1, [1, 2], [7, 8]⟩ : RawArray).size =
      (⟨0, 2, 1, 2, 1, [1, 2], [7, 8]⟩ : RawArray).elbyte *
        (⟨0, 2, 1, 2, 1, [1, 2], [7, 8]⟩ : RawArray).dims.prod) :=
  ⟨C7_size_invariant_amended.1 ⟨2, 1⟩ [[7], [8]],
   C7_size_invariant_amended.2.1 ⟨2, 1⟩
     ((fromVec ⟨2, 1⟩ [[7], [8]]).writeRA) _ rfl,
   C7_size_invariant_amended.2.2 ⟨0, 2, 1, 2, 1, [2], [7, 8]⟩ _ [1, 2]
     (by decide) rfl⟩

/-- C8: `write` emits the six header fields magic, flags, eltype,
elbyte, size, ndims in that order, each as a little-endian 8-byte
unsigned integer, then the dims values in the same encoding, then the
raw byte image of the element buffer; and the container built from the
1-D f32 vector `[3.14, 2.72, 1.62, 1.41]` (given by its IEEE-754
little-endian byte patterns) carries header fields `flags = 0`,
`eltype = 3`, `elbyte = 4`, `size = 16`, `ndims = 1`, `dims = [4]`. -/
theorem C8_write_layout :
    (forall ra : RawArray,
      ra.writeRA =
        u64le MAGIC_NUMBER ++ u64le ra.flags ++ u64le ra.eltype ++
        u64le ra.elbyte ++ u64le ra.size ++ u64le ra.ndims ++
        (ra.dims.map u64le).flatten ++ ra.data) /\
    ((fun r => (r.flags, r.eltype, r.elbyte, r.size, r.ndims, r.dims))
        (fromVec ⟨3, 4⟩
          [[0xc3, 0xf5, 0x48, 0x40], [0x7b, 0x14, 0x2e, 0x40],
           [0x29, 0x5c, 0xcf, 0x3f], [0xe1, 0x7a, 0xb4, 0x3f]]) =
      (0, 3, 4, 16, 1, [4])) :=
  ⟨writeRA_eq, rfl⟩

/-- C9 counterexample: a stream holding a well-formed u8 header that
declares `size = 1`, followed by two payload bytes — at least `size`
bytes remain, yet the read fails with the truncated-file error,
because `read_data` consumes the whole remainder with `read_to_end`
and asserts it is exactly `size` bytes. -/
theorem C9_extra_bytes_counterexample :
    RawArray.readRA ⟨2, 1⟩ ((fromVec ⟨2, 1⟩ [[7]]).writeRA ++ [9]) =
      .error .truncatedFile :=
  rfl

/-- C9 amended: `read_data` takes the whole remaining stream as the
payload and succeeds exactly when that remainder is `size` bytes long
(given the header guarantees — positive element width dividing size —
it then stores the remainder as the data); when the remainder is
shorter or longer than `size`, it fails with the truncated-file
error. -/
theorem C9_read_data_exact (ra : RawArray) (s : List Nat) :
    (s.length ≠ ra.size -> ra.read_data s = .error .truncatedFile) /\
    (s.length = ra.size -> 0 < ra.elbyte -> ra.elbyte ∣ ra.size ->
      ra.read_data s = .ok { ra with data := s }) := by
  constructor
  · intro h
    simp [RawArray.read_data, h]
  · intro h hpos hdvd
    have hmod : ra.size % ra.elbyte = 0 := by
      obtain ⟨k, hk⟩ := hdvd
      rw [hk]
      exact Nat.mul_mod_right _ _
    simp [RawArray.read_data, from_u8, h, hmod, hpos.ne']

/-- C9 witness: for the one-element u8 container (size 1, elbyte 1), a
two-byte remainder fails as truncated while a one-byte remainder
succeeds and becomes the data. -/
theorem C9_witness :
    ((fromVec ⟨2, 1⟩ [[7]]).read_data [1, 2] = .error .truncatedFile) /\
    ((fromVec ⟨2, 1⟩ [[7]]).read_data [5] =
      .ok { fromVec ⟨2, 1⟩ [[7]] with data := [5] }) :=
  ⟨(C9_read_data_exact _ _).1 (by decide),
   (C9_read_data_exact _ _).2 (by decide) (by decide) (by decide)⟩

/-- C10: whenever the 8 bytes at absolute `offset` exist in the file,
`u64_at` returns the little-endian u64 they encode together with a
file state identical to the input — the current read position is
restored — so subsequent sequential `u64` reads are unaffected by any
number of preceding `u64_at` calls. -/
theorem C10_u64_at_spec (f : RAFile) (offset : Nat)
    (h : offset + 8 ≤ f.contents.length) :
    f.u64_at offset =
      .ok (u64fromLE ((f.contents.drop offset).take 8), f) := by
  unfold RAFile.u64_at RAFile.read_exact8
  simp [h]

/-- C10 witness: peeking the u64 at offset 5 of a 20-byte file leaves
the file (and its position 3) unchanged. -/
theorem C10_witness :
    RAFile.u64_at ⟨List.range 20, 3⟩ 5 =
      .ok (u64fromLE (((List.range 20).drop 5).take 8),
           (⟨List.range 20, 3⟩ : RAFile)) :=
  C10_u64_at_spec ⟨List.range 20, 3⟩ 5 (by decide)

end RawArraySpec
